import Mathlib

/-!
Verification of the motor-control core of the ember-firmware repository.

The development shallowly embeds `src/C++/Motor.cpp` and the typed getters of
`src/C++/Settings.cpp`.  Commands are triples of a register, an action code and
an optional signed value; the I2C transport is modelled as an oracle
`Transport : Nat → Bool` giving the outcome of the n-th write attempt, and the
bus state records the trace of commands whose transmission was attempted.
-/

namespace Ember

/-- Registers of the motor controller, from the `MC_*_REG` constants used in
`Motor.cpp`: `MC_GENERAL_REG`, `MC_ROT_SETTINGS_REG`, `MC_ROT_ACTION_REG`,
`MC_Z_SETTINGS_REG`, `MC_Z_ACTION_REG`. -/
inductive Register where
  | general
  | rotSettings
  | rotAction
  | zSettings
  | zAction
deriving DecidableEq, Repr

/-- Action codes, from the `MC_*` constants used in `Motor.cpp`:
reset, enable, disable, pause, resume, clear, interrupt, move,
Z screw pitch, Z max travel, gear ratio, microstepping, start speed,
acceleration, deceleration, speed. -/
inductive MCode where
  | reset
  | enable
  | disable
  | pause
  | resume
  | clearQ
  | interrupt
  | move
  | screwPitch
  | maxTravel
  | gearing
  | microSteps
  | startSpeed
  | accel
  | decel
  | speed
deriving DecidableEq, Repr

/-- A motor command: register, action code, optional signed value
(`MotorCommand` has no value, `MotorValueCommand` carries one). -/
structure MotorCommand where
  reg : Register
  act : MCode
  value : Option Int
deriving DecidableEq, Repr

/-- The `MotorCommand(reg, action)` constructor: no value. -/
def motorCommand (r : Register) (a : MCode) : MotorCommand := ⟨r, a, none⟩

/-- The `MotorValueCommand(reg, action, value)` constructor. -/
def motorValueCommand (r : Register) (a : MCode) (v : Int) : MotorCommand :=
  ⟨r, a, some v⟩

/-- Outcome oracle for the I2C transport: whether the n-th write attempt
(counted from 0 over the life of the connection) is accepted. -/
def Transport : Type := Nat → Bool

/-- State of the bus connection: the trace of commands whose transmission
has been attempted, in order. -/
structure BusState where
  sent : List MotorCommand
deriving DecidableEq, Repr

/-- `command.Send(this)`: attempts one write over the transport, returning the
new bus state and whether the transport accepted the write. -/
def MotorCommand.Send (c : MotorCommand) (t : Transport) (s : BusState) :
    BusState × Bool :=
  (⟨s.sent ++ [c]⟩, t s.sent.length)

namespace Motor

/-- `Motor::SendCommands`: sends the commands in order, returning false
immediately on the first command whose send fails. -/
def SendCommands (t : Transport) : BusState → List MotorCommand → BusState × Bool
  | s, [] => (s, true)
  | s, c :: rest =>
    let r := c.Send t s
    if r.2 = true then SendCommands t r.1 rest else (r.1, false)

/-- `Motor::Reset`: a single (general, reset) command. -/
def Reset (t : Transport) (s : BusState) : BusState × Bool :=
  (motorCommand .general .reset).Send t s

/-- `Motor::EnableMotors`: rotation enable `&&` Z enable (C++ short-circuit:
the Z command is sent only if the rotation command succeeded). -/
def EnableMotors (t : Transport) (s : BusState) : BusState × Bool :=
  let r := (motorCommand .rotAction .enable).Send t s
  if r.2 = true then (motorCommand .zAction .enable).Send t r.1 else (r.1, false)

/-- `Motor::DisableMotors`: rotation disable `&&` Z disable (C++ short-circuit:
the Z command is sent only if the rotation command succeeded). -/
def DisableMotors (t : Transport) (s : BusState) : BusState × Bool :=
  let r := (motorCommand .rotAction .disable).Send t s
  if r.2 = true then (motorCommand .zAction .disable).Send t r.1 else (r.1, false)

/-- `Motor::Pause`: a single (general, pause) command. -/
def Pause (t : Transport) (s : BusState) : BusState × Bool :=
  (motorCommand .general .pause).Send t s

/-- `Motor::Resume`: a single (general, resume) command. -/
def Resume (t : Transport) (s : BusState) : BusState × Bool :=
  (motorCommand .general .resume).Send t s

/-- `Motor::ClearCommandQueue`: a single (general, clear) command. -/
def ClearCommandQueue (t : Transport) (s : BusState) : BusState × Bool :=
  (motorCommand .general .clearQ).Send t s

/-- `Motor::~Motor`: the destructor calls `DisableMotors()`, discarding its
boolean result. -/
def destructor (t : Transport) (s : BusState) : BusState :=
  (DisableMotors t s).1

end Motor

/-- Error conditions reported to the error handler by the `Settings` getters. -/
inductive MCError where
  | unknownSetting
  | cantGetSetting
deriving DecidableEq, Repr

/-- Names of the settings keys appearing in `Settings.cpp` and `Motor.cpp`.
Modelled from the spec: the key macros live in `Settings.h`, which is not part
of the sources here; each macro is a distinct name, with `LAYER_THICKNESS` the
only name shared between the defaults map of `Settings.cpp` and the keys read
by `Motor.cpp`. -/
inductive SettingKey where
  | jobNameSetting
  | layerThickness
  | burnInLayers
  | firstExposure
  | burnInExposure
  | modelExposure
  | separationRPM
  | isRegistered
  | printDataDir
  | downloadDir
  | stagingDir
  | zScrewPitch
  | zMaxTravel
  | zGearing
  | zMicroSteps
  | zStartSpeed
  | rGearing
  | rMicroSteps
  | rStartSpeed
  | rHomingAccel
  | rHomingSpeed
  | zHomingAccel
  | zHomingSpeed
  | rSepAccel
  | rSepDecel
  | rSepSpeed
  | zSepAccel
  | zSepDecel
  | zSepSpeed
  | zSepHeight
deriving DecidableEq, Repr

/-- Modelled from the spec: the `ROOT_DIR` macro (not among the sources); its
concrete value is irrelevant to every property proved here. -/
def rootDir : String := "/smith"

/-- The `_defaultsMap` built by the `Settings` constructor
(`Settings.cpp` lines 34-44); `none` for keys with no default. -/
def defaultsMap : SettingKey → Option String
  | .jobNameSetting => some "slice"
  | .layerThickness => some "25"
  | .burnInLayers => some "1"
  | .firstExposure => some "5.0"
  | .burnInExposure => some "4.0"
  | .modelExposure => some "2.5"
  | .separationRPM => some "0"
  | .isRegistered => some "false"
  | .printDataDir => some (rootDir ++ "/print_data")
  | .downloadDir => some (rootDir ++ "/download")
  | .stagingDir => some (rootDir ++ "/staging")
  | _ => none

/-- The `_settingsTree` property tree, abstracted to the values stored under
`Settings.<key>`: `none` when the path is absent (a `ptree` read throws). -/
def SettingsTree : Type := SettingKey → Option String

/-- Parse a decimal string to a rational, modelling `ptree::get<double>`
conversion; `none` on failure. -/
def parseDouble? (s : String) : Option Rat :=
  let neg := s.startsWith "-"
  let t := if neg then s.drop 1 else s
  match t.split (fun c => c = '.') with
  | [w] => (w.toNat?).map (fun n => if neg then -(n : Rat) else (n : Rat))
  | [w, f] =>
    match w.toNat?, f.toNat? with
    | some a, some b =>
      let m : Rat := (a : Rat) + (b : Rat) / ((10 : Rat) ^ f.length)
      some (if neg then -m else m)
    | _, _ => none
  | _ => none

/-- Parse a boolean string, modelling `ptree::get<bool>` conversion
(boolalpha reading); `none` on failure. -/
def parseBool? (s : String) : Option Bool :=
  if s = "true" then some true
  else if s = "false" then some false
  else none

namespace Settings

/-- `Settings::IsValidSettingName`: the key is present in the defaults map. -/
def IsValidSettingName (k : SettingKey) : Bool := (defaultsMap k).isSome

/-- `Settings::GetInt`: 0 with an `UnknownSetting` report when the key is not a
valid setting name; otherwise the tree value converted to `int`, with 0 and a
`CantGetSetting` report when the read or the conversion throws. -/
def GetInt (tree : SettingsTree) (k : SettingKey) : Int × List MCError :=
  if IsValidSettingName k then
    match (tree k).bind String.toInt? with
    | some v => (v, [])
    | none => (0, [.cantGetSetting])
  else (0, [.unknownSetting])

/-- `Settings::GetString`: the empty string with an `UnknownSetting` report for
an invalid key; otherwise the tree value, with `""` and a `CantGetSetting`
report when the read throws. -/
def GetString (tree : SettingsTree) (k : SettingKey) : String × List MCError :=
  if IsValidSettingName k then
    match tree k with
    | some v => (v, [])
    | none => ("", [.cantGetSetting])
  else ("", [.unknownSetting])

/-- `Settings::GetDouble`: 0.0 with an `UnknownSetting` report for an invalid
key; otherwise the tree value converted to `double`, with 0.0 and a
`CantGetSetting` report when the read or the conversion throws. -/
def GetDouble (tree : SettingsTree) (k : SettingKey) : Rat × List MCError :=
  if IsValidSettingName k then
    match (tree k).bind parseDouble? with
    | some v => (v, [])
    | none => (0, [.cantGetSetting])
  else (0, [.unknownSetting])

/-- `Settings::GetBool`: false with an `UnknownSetting` report for an invalid
key; otherwise the tree value converted to `bool`, with false and a
`CantGetSetting` report when the read or the conversion throws. -/
def GetBool (tree : SettingsTree) (k : SettingKey) : Bool × List MCError :=
  if IsValidSettingName k then
    match (tree k).bind parseBool? with
    | some v => (v, [])
    | none => (false, [.cantGetSetting])
  else (false, [.unknownSetting])

/-- The integer value a `SETTINGS.GetInt(key)` call yields to its caller
(the error report goes to the logger side channel). -/
def getIntVal (tree : SettingsTree) (k : SettingKey) : Int := (GetInt tree k).1

end Settings

/-- Modelled from the spec: `TRAY_START_ANGLE`, the fixed start-offset angle
(60 degrees per the comment in `Motor::GoHome`); defined in a header not among
the sources.  Only its identity, not its value, matters below. -/
def trayStartAngle : Int := 60

namespace Motor

/-- The command vector built by `Motor::Initialize` (lines 84-112). -/
def InitializeCommands (tree : SettingsTree) : List MotorCommand :=
  [ motorValueCommand .zSettings .screwPitch (Settings.getIntVal tree .zScrewPitch),
    motorValueCommand .zSettings .maxTravel (Settings.getIntVal tree .zMaxTravel),
    motorValueCommand .zSettings .gearing (Settings.getIntVal tree .zGearing),
    motorValueCommand .zSettings .microSteps (Settings.getIntVal tree .zMicroSteps),
    motorValueCommand .zSettings .startSpeed (Settings.getIntVal tree .zStartSpeed),
    motorValueCommand .rotSettings .gearing (Settings.getIntVal tree .rGearing),
    motorValueCommand .rotSettings .microSteps (Settings.getIntVal tree .rMicroSteps),
    motorValueCommand .rotSettings .startSpeed (Settings.getIntVal tree .rStartSpeed),
    motorCommand .rotAction .enable,
    motorCommand .zAction .enable,
    motorCommand .general .interrupt ]

/-- `Motor::Initialize`: builds the vector and hands it to `SendCommands`. -/
def Initialize (t : Transport) (s : BusState) (tree : SettingsTree) :
    BusState × Bool :=
  SendCommands t s (InitializeCommands tree)

/-- The command vector built by `Motor::GoHome` (lines 121-142). -/
def GoHomeCommands (tree : SettingsTree) : List MotorCommand :=
  [ motorValueCommand .rotSettings .accel (Settings.getIntVal tree .rHomingAccel),
    motorValueCommand .rotSettings .speed (Settings.getIntVal tree .rHomingSpeed),
    motorValueCommand .rotAction .move 0,
    motorValueCommand .rotAction .move trayStartAngle,
    motorValueCommand .zSettings .accel (Settings.getIntVal tree .zHomingAccel),
    motorValueCommand .zSettings .speed (Settings.getIntVal tree .zHomingSpeed),
    motorValueCommand .zAction .move 0,
    motorCommand .general .interrupt ]

/-- `Motor::GoHome`: builds the vector and hands it to `SendCommands`. -/
def GoHome (t : Transport) (s : BusState) (tree : SettingsTree) :
    BusState × Bool :=
  SendCommands t s (GoHomeCommands tree)

/-- The command vector built by `Motor::GoToNextLayer` (lines 150-181); note
that every `move` in it is pushed on a settings register, exactly as in the
source. -/
def GoToNextLayerCommands (tree : SettingsTree) : List MotorCommand :=
  let deltaZ : Int := Settings.getIntVal tree .zSepHeight
  [ motorValueCommand .rotSettings .accel (Settings.getIntVal tree .rSepAccel),
    motorValueCommand .rotSettings .decel (Settings.getIntVal tree .rSepDecel),
    motorValueCommand .rotSettings .speed (Settings.getIntVal tree .rSepSpeed),
    motorValueCommand .rotSettings .move (-1 * trayStartAngle),
    motorValueCommand .zSettings .accel (Settings.getIntVal tree .zSepAccel),
    motorValueCommand .zSettings .decel (Settings.getIntVal tree .zSepDecel),
    motorValueCommand .zSettings .speed (Settings.getIntVal tree .zSepSpeed),
    motorValueCommand .zSettings .move deltaZ,
    motorValueCommand .rotSettings .move trayStartAngle,
    motorValueCommand .zSettings .move (Settings.getIntVal tree .layerThickness - deltaZ),
    motorCommand .general .interrupt ]

/-- `Motor::GoToNextLayer`: builds the vector and hands it to `SendCommands`. -/
def GoToNextLayer (t : Transport) (s : BusState) (tree : SettingsTree) :
    BusState × Bool :=
  SendCommands t s (GoToNextLayerCommands tree)

end Motor

/-- The setting keys read by `Motor::Initialize`, `Motor::GoHome` and
`Motor::GoToNextLayer`. -/
def motorReadKeys : List SettingKey :=
  [ .zScrewPitch, .zMaxTravel, .zGearing, .zMicroSteps, .zStartSpeed,
    .rGearing, .rMicroSteps, .rStartSpeed,
    .rHomingAccel, .rHomingSpeed, .zHomingAccel, .zHomingSpeed,
    .rSepAccel, .rSepDecel, .rSepSpeed,
    .zSepAccel, .zSepDecel, .zSepSpeed, .zSepHeight, .layerThickness ]

/-! ## Lemmas about the command sequencer -/

/-- Unfolding: a successful head send continues with the extended trace. -/
lemma sendCommands_cons_pos (t : Transport) (s : BusState) (c : MotorCommand)
    (rest : List MotorCommand) (h : t s.sent.length = true) :
    Motor.SendCommands t s (c :: rest) =
      Motor.SendCommands t ⟨s.sent ++ [c]⟩ rest := by
  simp [Motor.SendCommands, MotorCommand.Send, h]

/-- Unfolding: a failed head send stops with result false. -/
lemma sendCommands_cons_neg (t : Transport) (s : BusState) (c : MotorCommand)
    (rest : List MotorCommand) (h : t s.sent.length = false) :
    Motor.SendCommands t s (c :: rest) = (⟨s.sent ++ [c]⟩, false) := by
  simp [Motor.SendCommands, MotorCommand.Send, h]

/-- `SendCommands` succeeds exactly when the transport accepts every attempt
made for the sequence. -/
lemma sendCommands_success_iff (t : Transport) :
    ∀ (cs : List MotorCommand) (s : BusState),
    (Motor.SendCommands t s cs).2 = true ↔
      (∀ i, i < cs.length → t (s.sent.length + i) = true) := by
  intro cs
  induction cs with
  | nil =>
    intro s
    simp [Motor.SendCommands]
  | cons c rest ih =>
    intro s
    by_cases h : t s.sent.length = true
    · rw [sendCommands_cons_pos t s c rest h, ih ⟨s.sent ++ [c]⟩]
      have len1 : (⟨s.sent ++ [c]⟩ : BusState).sent.length = s.sent.length + 1 := by
        simp
      constructor
      · intro hall i hi
        cases i with
        | zero => simpa using h
        | succ n =>
          have hn : n < rest.length := by
            simpa [List.length_cons] using hi
          have hr := hall n hn
          rw [len1] at hr
          have e : s.sent.length + (n + 1) = s.sent.length + 1 + n := by omega
          rw [e]
          exact hr
      · intro hall i hi
        rw [len1]
        have e : s.sent.length + 1 + i = s.sent.length + (i + 1) := by omega
        rw [e]
        exact hall (i + 1) (by simpa [List.length_cons] using hi)
    · rw [sendCommands_cons_neg t s c rest (by simpa using h)]
      constructor
      · intro hc
        simp at hc
      · intro hall
        exfalso
        have h0 := hall 0 (by simp)
        rw [Nat.add_zero] at h0
        exact h h0

/-- On success the whole sequence is appended to the trace. -/
lemma sendCommands_sent_of_success (t : Transport) :
    ∀ (cs : List MotorCommand) (s : BusState),
    (Motor.SendCommands t s cs).2 = true →
    (Motor.SendCommands t s cs).1.sent = s.sent ++ cs := by
  intro cs
  induction cs with
  | nil =>
    intro s _
    simp [Motor.SendCommands]
  | cons c rest ih =>
    intro s hsucc
    by_cases h : t s.sent.length = true
    · rw [sendCommands_cons_pos t s c rest h] at hsucc ⊢
      rw [ih ⟨s.sent ++ [c]⟩ hsucc]
      simp
    · rw [sendCommands_cons_neg t s c rest (by simpa using h)] at hsucc
      simp at hsucc

/-- Fail-fast: if the transport accepts the first `j` attempts for the
sequence and rejects attempt `j`, then exactly the first `j + 1` commands are
appended to the trace and the result is false. -/
lemma sendCommands_failfast_aux (t : Transport) :
    ∀ (cs : List MotorCommand) (s : BusState) (j : Nat), j < cs.length →
    (∀ i, i < j → t (s.sent.length + i) = true) →
    t (s.sent.length + j) = false →
    (Motor.SendCommands t s cs).1.sent = s.sent ++ cs.take (j + 1) ∧
    (Motor.SendCommands t s cs).2 = false := by
  intro cs
  induction cs with
  | nil =>
    intro s j hj
    simp at hj
  | cons c rest ih =>
    intro s j hj hacc hrej
    cases j with
    | zero =>
      have h0 : t s.sent.length = false := by simpa using hrej
      rw [sendCommands_cons_neg t s c rest h0]
      constructor
      · simp
      · rfl
    | succ n =>
      have h0 : t s.sent.length = true := by
        have := hacc 0 (Nat.succ_pos n)
        simpa using this
      rw [sendCommands_cons_pos t s c rest h0]
      have len1 : (⟨s.sent ++ [c]⟩ : BusState).sent.length = s.sent.length + 1 := by
        simp
      have hacc2 : ∀ i, i < n → t ((⟨s.sent ++ [c]⟩ : BusState).sent.length + i) = true := by
        intro i hi
        rw [len1]
        have := hacc (i + 1) (by omega)
        have e : s.sent.length + (i + 1) = s.sent.length + 1 + i := by omega
        rw [e] at this
        exact this
      have hrej2 : t ((⟨s.sent ++ [c]⟩ : BusState).sent.length + n) = false := by
        rw [len1]
        have e : s.sent.length + 1 + n = s.sent.length + (n + 1) := by omega
        rw [e]
        exact hrej
      obtain ⟨h1, h2⟩ := ih ⟨s.sent ++ [c]⟩ n (by simpa [List.length_cons] using hj) hacc2 hrej2
      refine ⟨?_, h2⟩
      rw [h1]
      simp [List.take_succ_cons]

/-! ## Claim theorems -/

/-- Claim C1, counterexample: with a transport that rejects every write, the
rotation-enable send fails and the Z-axis enable command is never sent (it
appears zero times in the trace, not once); likewise for disable.  The C++
`&&` short-circuits, so the claim as stated is false. -/
theorem enableMotors_attempt_cex :
    (Motor.EnableMotors (fun _ => false) ⟨[]⟩).1.sent
      = [⟨.rotAction, .enable, none⟩] ∧
    ((Motor.EnableMotors (fun _ => false) ⟨[]⟩).1.sent.count
      ⟨.zAction, .enable, none⟩ = 0) ∧
    ((Motor.DisableMotors (fun _ => false) ⟨[]⟩).1.sent.count
      ⟨.zAction, .disable, none⟩ = 0) ∧
    (Motor.EnableMotors (fun _ => false) ⟨[]⟩).2 = false := by
  decide

/-- Claim C1, amended: `EnableMotors` and `DisableMotors` always attempt the
rotation-axis command, attempt the Z-axis command only when the rotation send
succeeded (C++ short-circuit `&&`), and return true exactly when the rotation
send and the subsequent Z send both succeed. -/
theorem enableDisable_shortCircuit (t : Transport) (s : BusState) :
    (Motor.EnableMotors t s).1.sent
      = s.sent ++ (if t s.sent.length then
          [⟨.rotAction, .enable, none⟩, ⟨.zAction, .enable, none⟩]
        else [⟨.rotAction, .enable, none⟩]) ∧
    (Motor.EnableMotors t s).2 = (t s.sent.length && t (s.sent.length + 1)) ∧
    (Motor.DisableMotors t s).1.sent
      = s.sent ++ (if t s.sent.length then
          [⟨.rotAction, .disable, none⟩, ⟨.zAction, .disable, none⟩]
        else [⟨.rotAction, .disable, none⟩]) ∧
    (Motor.DisableMotors t s).2 = (t s.sent.length && t (s.sent.length + 1)) := by
  by_cases h : t s.sent.length = true
  · simp [Motor.EnableMotors, Motor.DisableMotors, MotorCommand.Send,
      motorCommand, h]
  · simp only [Bool.not_eq_true] at h
    simp [Motor.EnableMotors, Motor.DisableMotors, MotorCommand.Send,
      motorCommand, h]

/-- Claim C7: `Reset`, `Pause`, `Resume` and `ClearCommandQueue` each send
exactly one command, on the general register with the documented action code
and no value; and two consecutive `ClearCommandQueue` calls each append
exactly one such command, sharing no state. -/
theorem singleShot_ops_spec (t : Transport) (s : BusState) :
    (Motor.Reset t s).1.sent = s.sent ++ [⟨.general, .reset, none⟩] ∧
    (Motor.Reset t s).2 = t s.sent.length ∧
    (Motor.Pause t s).1.sent = s.sent ++ [⟨.general, .pause, none⟩] ∧
    (Motor.Pause t s).2 = t s.sent.length ∧
    (Motor.Resume t s).1.sent = s.sent ++ [⟨.general, .resume, none⟩] ∧
    (Motor.Resume t s).2 = t s.sent.length ∧
    (Motor.ClearCommandQueue t s).1.sent
      = s.sent ++ [⟨.general, .clearQ, none⟩] ∧
    (Motor.ClearCommandQueue t s).2 = t s.sent.length ∧
    (Motor.ClearCommandQueue t (Motor.ClearCommandQueue t s).1).1.sent
      = s.sent ++ [⟨.general, .clearQ, none⟩, ⟨.general, .clearQ, none⟩] := by
  simp [Motor.Reset, Motor.Pause, Motor.Resume, Motor.ClearCommandQueue,
    MotorCommand.Send, motorCommand]

/-- Claim C9: the `Motor` destructor performs `DisableMotors()`: its final bus
state is that of `DisableMotors`, so the rotation-disable command is always
attempted and the Z-disable command follows whenever the first send
succeeds. -/
theorem destructor_disables (t : Transport) (s : BusState) :
    Motor.destructor t s = (Motor.DisableMotors t s).1 ∧
    (Motor.destructor t s).sent
      = s.sent ++ (if t s.sent.length then
          [⟨.rotAction, .disable, none⟩, ⟨.zAction, .disable, none⟩]
        else [⟨.rotAction, .disable, none⟩]) := by
  refine ⟨rfl, ?_⟩
  by_cases h : t s.sent.length = true
  · simp [Motor.destructor, Motor.DisableMotors, MotorCommand.Send,
      motorCommand, h]
  · simp only [Bool.not_eq_true] at h
    simp [Motor.destructor, Motor.DisableMotors, MotorCommand.Send,
      motorCommand, h]

/-- Claim C2, divergence witness: in the sequence built by `GoToNextLayer`
every command whose action code is `move` targets a Settings register
(`rotSettings` or `zSettings`), never an Action register — the 4th and 9th
commands are rotation moves on `rotSettings` — while in `GoHome` every move
does target an Action register. -/
theorem goToNextLayer_moves_target_settings (tree : SettingsTree) :
    (Motor.GoToNextLayerCommands tree).get? 3
      = some ⟨.rotSettings, .move, some (-1 * trayStartAngle)⟩ ∧
    (Motor.GoToNextLayerCommands tree).get? 8
      = some ⟨.rotSettings, .move, some trayStartAngle⟩ ∧
    (((Motor.GoToNextLayerCommands tree).filter (fun c => c.act == .move)).all
      (fun c => c.reg == .rotSettings || c.reg == .zSettings) = true) ∧
    (((Motor.GoHomeCommands tree).filter (fun c => c.act == .move)).all
      (fun c => c.reg == .rotAction || c.reg == .zAction) = true) := by
  refine ⟨rfl, rfl, rfl, rfl⟩

/-- Claim C3: the two Z-move values in the `GoToNextLayer` sequence (the 8th
and 10th commands) sum, as signed integers, to exactly the configured layer
thickness, for every settings state (hence independent of the separating
height read). -/
theorem goToNextLayer_z_move_sum (tree : SettingsTree) :
    ∃ a b : Int,
      (Motor.GoToNextLayerCommands tree).get? 7
        = some ⟨.zSettings, .move, some a⟩ ∧
      (Motor.GoToNextLayerCommands tree).get? 9
        = some ⟨.zSettings, .move, some b⟩ ∧
      a + b = Settings.getIntVal tree .layerThickness := by
  refine ⟨Settings.getIntVal tree .zSepHeight,
    Settings.getIntVal tree .layerThickness -
      Settings.getIntVal tree .zSepHeight, rfl, rfl, by ring⟩

/-- Claim C6: `GoHome` builds exactly, in order: rotation acceleration then
rotation speed (homing profile), rotation move to 0, rotation move by the
fixed start offset, Z acceleration then Z speed (homing profile), Z move to 0,
and a trailing interrupt request as the final command. -/
theorem goHome_spec (tree : SettingsTree) :
    Motor.GoHomeCommands tree
      = [ ⟨.rotSettings, .accel, some (Settings.getIntVal tree .rHomingAccel)⟩,
          ⟨.rotSettings, .speed, some (Settings.getIntVal tree .rHomingSpeed)⟩,
          ⟨.rotAction, .move, some 0⟩,
          ⟨.rotAction, .move, some trayStartAngle⟩,
          ⟨.zSettings, .accel, some (Settings.getIntVal tree .zHomingAccel)⟩,
          ⟨.zSettings, .speed, some (Settings.getIntVal tree .zHomingSpeed)⟩,
          ⟨.zAction, .move, some 0⟩,
          ⟨.general, .interrupt, none⟩ ] ∧
    ((Motor.GoHomeCommands tree).filter
        (fun c => c.reg == .rotAction && c.act == .move))
      = [⟨.rotAction, .move, some 0⟩,
         ⟨.rotAction, .move, some trayStartAngle⟩] ∧
    (Motor.GoHomeCommands tree).getLast? = some ⟨.general, .interrupt, none⟩ := by
  refine ⟨rfl, rfl, rfl⟩

/-- Claim C4: `SendCommands` is fail-fast: its result is true iff the
transport accepts every command of the sequence, in which case the whole
sequence is transmitted; and if the transport accepts the first `j` commands
and rejects the next one, exactly `j + 1` commands are transmitted, the
remainder is never sent, and the result is false. -/
theorem sendCommands_failFast (t : Transport) (cs : List MotorCommand) :
    ((Motor.SendCommands t ⟨[]⟩ cs).2 = true ↔
        ∀ i, i < cs.length → t i = true) ∧
    ((Motor.SendCommands t ⟨[]⟩ cs).2 = true →
        (Motor.SendCommands t ⟨[]⟩ cs).1.sent = cs) ∧
    ∀ j, j < cs.length → (∀ i, i < j → t i = true) → t j = false →
      (Motor.SendCommands t ⟨[]⟩ cs).1.sent = cs.take (j + 1) ∧
      (Motor.SendCommands t ⟨[]⟩ cs).2 = false := by
  refine ⟨?_, ?_, ?_⟩
  · have h := sendCommands_success_iff t cs ⟨[]⟩
    simpa using h
  · intro hs
    have h := sendCommands_sent_of_success t cs ⟨[]⟩ hs
    simpa using h
  · intro j hj hacc hrej
    have h := sendCommands_failfast_aux t cs ⟨[]⟩ j hj
      (by intro i hi; simpa using hacc i hi) (by simpa using hrej)
    simpa using h

/-- Witness for C4: with a transport accepting only the first write, sending
three commands transmits exactly the first two and returns false. -/
theorem sendCommands_failFast_witness :
    (Motor.SendCommands (fun i => i == 0) ⟨[]⟩
        [motorCommand .general .reset, motorCommand .general .pause,
         motorCommand .general .resume]).1.sent
      = [motorCommand .general .reset, motorCommand .general .pause] ∧
    (Motor.SendCommands (fun i => i == 0) ⟨[]⟩
        [motorCommand .general .reset, motorCommand .general .pause,
         motorCommand .general .resume]).2 = false := by
  have h := sendCommands_failFast (fun i => i == 0)
    [motorCommand .general .reset, motorCommand .general .pause,
     motorCommand .general .resume]
  have h3 := h.2.2 1 (by decide)
    (by intro i hi; simp [Nat.lt_one_iff.mp hi]) rfl
  simpa using h3

/-- Claim C5: `Initialize` builds exactly, in order: five Z-axis parameter
commands (screw pitch, max travel, gear ratio, microstepping, start speed),
three rotation-axis parameter commands (gear ratio, microstepping, start
speed), enable-rotation, enable-Z, and a trailing interrupt request — eleven
commands; it succeeds iff all eleven transmit, in which case all are sent, and
if the transport rejects command `j + 1` after accepting the first `j`, only
the first `j + 1` commands are transmitted and the call returns false. -/
theorem initialize_spec (t : Transport) (tree : SettingsTree) :
    Motor.InitializeCommands tree
      = [ ⟨.zSettings, .screwPitch, some (Settings.getIntVal tree .zScrewPitch)⟩,
          ⟨.zSettings, .maxTravel, some (Settings.getIntVal tree .zMaxTravel)⟩,
          ⟨.zSettings, .gearing, some (Settings.getIntVal tree .zGearing)⟩,
          ⟨.zSettings, .microSteps, some (Settings.getIntVal tree .zMicroSteps)⟩,
          ⟨.zSettings, .startSpeed, some (Settings.getIntVal tree .zStartSpeed)⟩,
          ⟨.rotSettings, .gearing, some (Settings.getIntVal tree .rGearing)⟩,
          ⟨.rotSettings, .microSteps, some (Settings.getIntVal tree .rMicroSteps)⟩,
          ⟨.rotSettings, .startSpeed, some (Settings.getIntVal tree .rStartSpeed)⟩,
          ⟨.rotAction, .enable, none⟩,
          ⟨.zAction, .enable, none⟩,
          ⟨.general, .interrupt, none⟩ ] ∧
    (Motor.InitializeCommands tree).length = 11 ∧
    ((Motor.Initialize t ⟨[]⟩ tree).2 = true ↔ ∀ i, i < 11 → t i = true) ∧
    ((Motor.Initialize t ⟨[]⟩ tree).2 = true →
        (Motor.Initialize t ⟨[]⟩ tree).1.sent = Motor.InitializeCommands tree) ∧
    ∀ j, j < 11 → (∀ i, i < j → t i = true) → t j = false →
      (Motor.Initialize t ⟨[]⟩ tree).1.sent
          = (Motor.InitializeCommands tree).take (j + 1) ∧
      (Motor.Initialize t ⟨[]⟩ tree).2 = false := by
  have hlen : (Motor.InitializeCommands tree).length = 11 := rfl
  refine ⟨rfl, hlen, ?_, ?_, ?_⟩
  · have h := sendCommands_success_iff t (Motor.InitializeCommands tree) ⟨[]⟩
    rw [hlen] at h
    simpa using h
  · intro hs
    have h := sendCommands_sent_of_success t (Motor.InitializeCommands tree)
      ⟨[]⟩ hs
    simpa using h
  · intro j hj hacc hrej
    have h := sendCommands_failfast_aux t (Motor.InitializeCommands tree)
      ⟨[]⟩ j (by rw [hlen]; exact hj)
      (by intro i hi; simpa using hacc i hi) (by simpa using hrej)
    simpa using h

/-- Witness for C5: with a transport rejecting every write, `Initialize`
transmits exactly its first command and returns false. -/
theorem initialize_spec_witness :
    (Motor.Initialize (fun _ => false) ⟨[]⟩ (fun _ => none)).1.sent
      = (Motor.InitializeCommands (fun _ => none)).take 1 ∧
    (Motor.Initialize (fun _ => false) ⟨[]⟩ (fun _ => none)).2 = false := by
  have h := initialize_spec (fun _ => false) (fun _ => none)
  exact h.2.2.2.2 0 (by omega) (by intro i hi; omega) rfl

/-- Claim C8: each typed getter substitutes a default of the correct type
(0, 0.0, "", false) instead of aborting whenever the lookup fails — an
unrecognized key yields an `UnknownSetting` report, and a failed tree read or
conversion on a recognized key yields a `CantGetSetting` report — with the
failure always reported through the error-handler side channel. -/
theorem settings_getters_default (tree : SettingsTree) (k : SettingKey) :
    ((defaultsMap k = none ∨ (tree k).bind String.toInt? = none) →
      Settings.GetInt tree k
        = (0, if defaultsMap k = none then [.unknownSetting]
              else [.cantGetSetting])) ∧
    ((defaultsMap k = none ∨ (tree k).bind parseDouble? = none) →
      Settings.GetDouble tree k
        = (0, if defaultsMap k = none then [.unknownSetting]
              else [.cantGetSetting])) ∧
    ((defaultsMap k = none ∨ tree k = none) →
      Settings.GetString tree k
        = ("", if defaultsMap k = none then [.unknownSetting]
               else [.cantGetSetting])) ∧
    ((defaultsMap k = none ∨ (tree k).bind parseBool? = none) →
      Settings.GetBool tree k
        = (false, if defaultsMap k = none then [.unknownSetting]
                  else [.cantGetSetting])) := by
  by_cases hd : defaultsMap k = none
  · have hv : Settings.IsValidSettingName k = false := by
      simp [Settings.IsValidSettingName, hd]
    refine ⟨fun _ => ?_, fun _ => ?_, fun _ => ?_, fun _ => ?_⟩ <;>
      simp [Settings.GetInt, Settings.GetDouble, Settings.GetString,
        Settings.GetBool, hv, hd]
  · have hv : Settings.IsValidSettingName k = true := by
      simp [Settings.IsValidSettingName, Option.isSome_iff_ne_none]
      exact hd
    refine ⟨fun hf => ?_, fun hf => ?_, fun hf => ?_, fun hf => ?_⟩ <;>
      rcases hf with hf | hf <;>
      first
        | exact absurd hf hd
        | simp [Settings.GetInt, Settings.GetDouble, Settings.GetString,
            Settings.GetBool, hv, hd, hf]

/-- Witness for C8: on an empty settings tree, looking up the (unrecognized)
Z screw-pitch key makes every getter return its default together with an
`UnknownSetting` report. -/
theorem settings_getters_default_witness :
    Settings.GetInt (fun _ => none) .zScrewPitch = (0, [.unknownSetting]) ∧
    Settings.GetDouble (fun _ => none) .zScrewPitch = (0, [.unknownSetting]) ∧
    Settings.GetString (fun _ => none) .zScrewPitch = ("", [.unknownSetting]) ∧
    Settings.GetBool (fun _ => none) .zScrewPitch = (false, [.unknownSetting]) := by
  have h := settings_getters_default (fun _ => none) .zScrewPitch
  refine ⟨?_, ?_, ?_, ?_⟩
  · simpa using h.1 (Or.inl rfl)
  · simpa using h.2.1 (Or.inl rfl)
  · simpa using h.2.2.1 (Or.inl rfl)
  · simpa using h.2.2.2 (Or.inl rfl)

/-- Claim C10: every setting key read by `Initialize`, `GoHome` and
`GoToNextLayer` except `LAYER_THICKNESS` is absent from the defaults map, so
`IsValidSettingName` is false and `GetInt` returns 0 with an `UnknownSetting`
report on every call; consequently the separating height reads as 0 and the
two Z-move values of `GoToNextLayer` are always 0 and the configured layer
thickness. -/
theorem motorReadKeys_invalid (tree : SettingsTree) :
    (∀ k, k ∈ motorReadKeys → k ≠ SettingKey.layerThickness →
      Settings.IsValidSettingName k = false ∧
      Settings.GetInt tree k = (0, [.unknownSetting])) ∧
    Settings.IsValidSettingName .layerThickness = true ∧
    (Motor.GoToNextLayerCommands tree).get? 7
      = some ⟨.zSettings, .move, some 0⟩ ∧
    (Motor.GoToNextLayerCommands tree).get? 9
      = some ⟨.zSettings, .move, some (Settings.getIntVal tree .layerThickness)⟩ := by
  have hz : Settings.getIntVal tree .zSepHeight = 0 := rfl
  refine ⟨?_, rfl, rfl, ?_⟩
  · intro k hk hne
    simp only [motorReadKeys, List.mem_cons, List.not_mem_nil, or_false] at hk
    rcases hk with h | h | h | h | h | h | h | h | h | h | h | h | h | h | h |
      h | h | h | h | h
    all_goals subst h
    all_goals first
      | exact ⟨rfl, rfl⟩
      | exact absurd rfl hne
  · have h9 : (Motor.GoToNextLayerCommands tree).get? 9
        = some ⟨.zSettings, .move,
            some (Settings.getIntVal tree .layerThickness -
              Settings.getIntVal tree .zSepHeight)⟩ := rfl
    rw [h9, hz, sub_zero]

/-- Witness for C10: the separating-height key is not a valid setting name,
and reading it from an empty tree reports `UnknownSetting` and yields 0. -/
theorem motorReadKeys_invalid_witness :
    Settings.IsValidSettingName .zSepHeight = false ∧
    Settings.GetInt (fun _ => none) .zSepHeight = (0, [.unknownSetting]) :=
  (motorReadKeys_invalid (fun _ => none)).1 .zSepHeight (by decide) (by decide)

end Ember
